import Mathlib

/-!
# TsukiPad — verification of the journal CRUD contract and client view projections

Shallow embedding of the TsukiPad server (Express handlers over a flat
`journal_data.txt` collection) and of the client view-projection functions
(memory/reminder partition, forecast aggregation, note color styling).

Server model (from `server.js`, shipped alongside the Prisma migration):
  * the persisted collection is the JSON array stored in `journal_data.txt`;
  * `getAllJournalEntriesFromFile` reads and parses that file;
  * route handlers translate an index parameter and a request body into
    a response status plus an optional `fs.writeFile` payload (`none`
    meaning the handler returned without writing).

Client model (from `App.tsx`, `lib/api/weather.ts`, `lib/noteColors.ts`,
`MonthlyCalendar.tsx`): pure functions over the fetched entry collection
and the forecast sample list.
-/

/-- A stored journal entry, as serialized into `journal_data.txt` by
`createJournalEntryInFile`: `{ date, title, time, text, color, photos }`.
Fields that the untyped server may leave `undefined` (dropped by
`JSON.stringify`) are modelled as `Option`; `color` is always a string
because creation stores `color || "blue"`. -/
structure Entry where
  date : Option String
  title : Option String
  time : Option String
  text : Option String
  color : String
  photos : List String
deriving DecidableEq, Repr

/-- Content of the backing medium `journal_data.txt` as seen by
`getAllJournalEntriesFromFile`. `entriesArr es` is a file whose content
`JSON.parse`s to the entry array `es`; `falsyJson` is content parsing to a
falsy JSON value (such as the literal `null`), the case the source's
`JSON.parse(data) || []` defaults; `invalid` is content `JSON.parse`
rejects — in particular an empty file, since `JSON.parse("")` throws. -/
inductive FileContent where
  | entriesArr (es : List Entry)
  | falsyJson
  | invalid
deriving DecidableEq, Repr

/-- Model of `getAllJournalEntriesFromFile`: `fs.readFile("journal_data.txt")` then
`JSON.parse(data) || []`, rethrowing any error. The medium is `none` when
the file does not exist (`readFile` rejects with ENOENT, rethrown by the
catch block). -/
def getAllJournalEntriesFromFile : Option FileContent → Except Unit (List Entry)
  | none => Except.error ()
  | some (FileContent.entriesArr es) => Except.ok es
  | some FileContent.falsyJson => Except.ok []
  | some FileContent.invalid => Except.error ()

/-- Route `GET /api/journal/all`: `res.json(allEntries)` on success, status 500
with no body on a storage read failure. Result: `(status, response body)`. -/
def getAllRoute (medium : Option FileContent) : Nat × Option (List Entry) :=
  match getAllJournalEntriesFromFile medium with
  | Except.ok es => (200, some es)
  | Except.error _ => (500, none)

/-- JSON body of `PUT /api/journal/entry/:index`: the optional `title`,
`time`, `text` fields destructured from `req.body` (`none` models a
nullish — absent or null — field, which `??` skips). -/
structure UpdateBody where
  title : Option String
  time : Option String
  text : Option String
deriving DecidableEq, Repr

/-- The merge performed by the PUT handler:
`{ ...entry, title: title ?? entry.title, time: time ?? entry.time,
text: text ?? entry.text }` — provided fields overwrite, nullish fields
keep the prior value, and `date`, `color`, `photos` are carried over by
the spread. -/
def mergeEntry (e : Entry) (b : UpdateBody) : Entry :=
  { e with
    title := match b.title with | some t => some t | none => e.title
    time := match b.time with | some t => some t | none => e.time
    text := match b.text with | some t => some t | none => e.text }

/-- Route `PUT /api/journal/entry/:index`. `indexParam` is the `parseInt` result
(`none` = NaN → 400). On success the handler overwrites position `index`
with the merged entry and writes the full collection back. Result:
`(status, response entry, fs.writeFile payload)`; a `none` payload means
the handler returned before reaching `fs.writeFile`. -/
def putEntryRoute (medium : Option FileContent) (indexParam : Option Int)
    (b : UpdateBody) : Nat × Option Entry × Option (List Entry) :=
  match indexParam with
  | none => (400, none, none)
  | some i =>
    match getAllJournalEntriesFromFile medium with
    | Except.error _ => (500, none, none)
    | Except.ok entries =>
      if h : i < 0 ∨ (entries.length : Int) ≤ i then (404, none, none)
      else
        let e := entries.get ⟨i.toNat, by omega⟩
        let updated := mergeEntry e b
        (200, some updated, some (entries.set i.toNat updated))

/-- Route `DELETE /api/journal/entry/:index`: same index validation as PUT, then
`entries.splice(index, 1)` and a full write-back. Result:
`(status, fs.writeFile payload)`. -/
def deleteEntryRoute (medium : Option FileContent) (indexParam : Option Int) :
    Nat × Option (List Entry) :=
  match indexParam with
  | none => (400, none)
  | some i =>
    match getAllJournalEntriesFromFile medium with
    | Except.error _ => (500, none)
    | Except.ok entries =>
      if i < 0 ∨ (entries.length : Int) ≤ i then (404, none)
      else (200, some (entries.eraseIdx i.toNat))

/-- A multipart photo file as received by multer: its client-side name and
its temporary location, plus whether the `fs.rename` moving it into
`uploads/` succeeds (`moveOk = false` models a rejected rename). -/
structure UploadFile where
  originalname : String
  tmpPath : String
  moveOk : Bool
deriving DecidableEq, Repr

/-- The reference generated for one stored photo:
`/uploads/${Date.now()}-${file.originalname}` (a single `now` stands for
the clock reads, which do not affect the properties claimed here). -/
def photoRef (now : Nat) (f : UploadFile) : String :=
  "/uploads/" ++ toString now ++ "-" ++ f.originalname

/-- The attachment-storage step of `createJournalEntryInFile`:
`await Promise.all(files.map(async (file) => { ...; await fs.rename(...);
photoReferences.push(...) }))`. Each callback computes its file name
synchronously, then awaits its `fs.rename` and pushes its reference when
that rename completes, so `photoReferences` ends up ordered by
rename-*completion* order, not input order. `completion` lists the file
indices in the order their renames complete (a permutation of the input
positions for a real run). If any rename rejects, `Promise.all` rejects
and the whole step fails. -/
def storePhotos (now : Nat) (files : List UploadFile) (completion : List Nat) :
    Except Unit (List String) :=
  if files.all (fun f => f.moveOk) then
    Except.ok (completion.filterMap (fun i => (files[i]?).map (photoRef now)))
  else
    Except.error ()

/-- Expression `color || "blue"`: the requested color string when it is truthy (present
and non-empty), `"blue"` when the field is absent/undefined (`none`) or the
empty string. No validation against the color enumeration occurs. -/
def colorOrDefault (c : Option String) : String :=
  match c with
  | none => "blue"
  | some s => if s = "" then "blue" else s

/-- Model of `createJournalEntryInFile(date, title, time, text, color, photoFiles)`:
reads the existing collection, stores every photo, then appends
`{ date, title, time, text, color: color || "blue", photos: photoReferences }`
and writes the full collection back. The `Except.ok` value is the
collection handed to `fs.writeFile`; any error (storage read or a failed
rename) aborts before the append, so nothing is written. -/
def createJournalEntryInFile (date title time text color : Option String)
    (photoFiles : List UploadFile) (now : Nat) (completion : List Nat)
    (medium : Option FileContent) : Except Unit (List Entry) :=
  match getAllJournalEntriesFromFile medium with
  | Except.error e => Except.error e
  | Except.ok existingEntries =>
    match storePhotos now photoFiles completion with
    | Except.error e => Except.error e
    | Except.ok photoReferences =>
      Except.ok (existingEntries ++
        [{ date := date, title := title, time := time, text := text,
           color := colorOrDefault color, photos := photoReferences }])

/-- Route `POST /api/journal`: destructures `{ date, title, time, text, color }`
from the body (each possibly absent — no field is validated) and calls
`createJournalEntryInFile`; responds `{success: true}` (200) on success and
500 on any thrown error. Result: `(status, fs.writeFile payload)`. -/
def postJournalRoute (medium : Option FileContent)
    (date title time text color : Option String)
    (photoFiles : List UploadFile) (now : Nat) (completion : List Nat) :
    Nat × Option (List Entry) :=
  match createJournalEntryInFile date title time text color photoFiles now
      completion medium with
  | Except.ok newEntries => (200, some newEntries)
  | Except.error _ => (500, none)

/-- Sample entry used by concrete witnesses below. -/
def picnicEntry : Entry :=
  { date := some "2025-06-15", title := some "Picnic", time := some "12:00",
    text := some "park day", color := "green", photos := ["/uploads/1-a.jpg"] }

/-- C1: update (`PUT /api/journal/entry/:index`) and delete
(`DELETE /api/journal/entry/:index`) with any index `< 0` or `≥ n` respond
404 (not found) and never reach `fs.writeFile`, so the stored collection is
untouched on the error path. -/
theorem update_delete_out_of_range (es : List Entry) (i : Int) (b : UpdateBody)
    (h : i < 0 ∨ (es.length : Int) ≤ i) :
    putEntryRoute (some (FileContent.entriesArr es)) (some i) b
        = (404, none, none) ∧
    deleteEntryRoute (some (FileContent.entriesArr es)) (some i)
        = (404, none) := by
  constructor
  · simp only [putEntryRoute, getAllJournalEntriesFromFile]
    rw [dif_pos h]
  · simp only [deleteEntryRoute, getAllJournalEntriesFromFile]
    rw [if_pos h]

/-- Witness for C1 at a stored collection of length 1, with `index = -1`
for update and `index = 1` (the length) for delete. -/
theorem update_delete_out_of_range_witness :
    putEntryRoute (some (FileContent.entriesArr [picnicEntry])) (some (-1))
        { title := some "X", time := none, text := none }
        = (404, none, none) ∧
    deleteEntryRoute (some (FileContent.entriesArr [picnicEntry])) (some 1)
        = (404, none) :=
  ⟨(update_delete_out_of_range [picnicEntry] (-1)
      { title := some "X", time := none, text := none } (by decide)).1,
   (update_delete_out_of_range [picnicEntry] 1
      { title := some "X", time := none, text := none } (by decide)).2⟩

/-- C2: a partial update at a valid index overwrites exactly position `i`
with the merge of the old entry and the body: `title`/`time`/`text` are set
when present in the body (an empty string included) and kept when absent;
`date`, `color`, `photos` and every other position are unchanged, and the
length is unchanged. -/
theorem partial_update_frame (es : List Entry) (i : Nat) (b : UpdateBody)
    (h : i < es.length) :
    ∃ u es',
      putEntryRoute (some (FileContent.entriesArr es)) (some ((i : Int))) b
          = (200, some u, some es') ∧
      u = mergeEntry (es.get ⟨i, h⟩) b ∧
      es' = es.set i u ∧
      es'.length = es.length ∧
      es'[i]? = some u ∧
      (∀ j, j ≠ i → es'[j]? = es[j]?) ∧
      u.title = (match b.title with
                 | some t => some t
                 | none => (es.get ⟨i, h⟩).title) ∧
      u.time = (match b.time with
                | some t => some t
                | none => (es.get ⟨i, h⟩).time) ∧
      u.text = (match b.text with
                | some t => some t
                | none => (es.get ⟨i, h⟩).text) ∧
      u.date = (es.get ⟨i, h⟩).date ∧
      u.color = (es.get ⟨i, h⟩).color ∧
      u.photos = (es.get ⟨i, h⟩).photos := by
  refine ⟨mergeEntry (es.get ⟨i, h⟩) b, es.set i (mergeEntry (es.get ⟨i, h⟩) b),
    ?_, rfl, rfl, by simp, ?_, ?_, rfl, rfl, rfl, rfl, rfl, rfl⟩
  · simp only [putEntryRoute, getAllJournalEntriesFromFile]
    rw [dif_neg (by omega)]
    simp [Int.toNat_ofNat]
  · exact List.getElem?_set_eq_of_lt _ h
  · intro j hj
    exact List.getElem?_set_ne (fun hij => hj hij.symm)

/-- Witness for C2: updating index 0 of a one-entry collection with only a
title change. -/
theorem partial_update_frame_witness :
    ∃ u es',
      putEntryRoute (some (FileContent.entriesArr [picnicEntry])) (some ((0 : Nat) : Int))
          { title := some "X", time := none, text := none }
          = (200, some u, some es') ∧
      u.title = some "X" ∧ u.time = some "12:00" ∧ u.text = some "park day" ∧
      u.date = some "2025-06-15" ∧ u.color = "green" ∧
      u.photos = ["/uploads/1-a.jpg"] ∧ es' = [u] := by
  obtain ⟨u, es', h1, h2, h3, -, -, -, h7, h8, h9, h10, h11, h12⟩ :=
    partial_update_frame [picnicEntry] 0
      { title := some "X", time := none, text := none } (by decide)
  refine ⟨u, es', h1, ?_, ?_, ?_, ?_, ?_, ?_, ?_⟩ <;>
    simp_all [picnicEntry, mergeEntry]


/-- Emptying helper: with no uploaded files, the attachment step yields no
references regardless of the completion schedule. -/
theorem storePhotos_nil (now : Nat) (completion : List Nat) :
    storePhotos now [] completion = Except.ok [] := by
  simp [storePhotos, List.filterMap_eq_nil_iff]

/-- C3 (failing input): uploading two files whose renames complete in the
opposite order stores the entry's `photos` in completion order
`[b, a]`, not upload order `[a, b]`. -/
theorem photo_order_completion_bug :
    createJournalEntryInFile (some "2025-01-01") (some "Trip") none none none
        [{ originalname := "a.jpg", tmpPath := "t1", moveOk := true },
         { originalname := "b.jpg", tmpPath := "t2", moveOk := true }]
        7 [1, 0] (some (FileContent.entriesArr []))
      = Except.ok
          [{ date := some "2025-01-01", title := some "Trip", time := none,
             text := none, color := "blue",
             photos := ["/uploads/7-b.jpg", "/uploads/7-a.jpg"] }] ∧
    ["/uploads/7-b.jpg", "/uploads/7-a.jpg"] ≠
      ([{ originalname := "a.jpg", tmpPath := "t1", moveOk := true },
        { originalname := "b.jpg", tmpPath := "t2", moveOk := true }] :
          List UploadFile).map (photoRef 7) := by
  refine ⟨rfl, ?_⟩
  decide

/-- C4: creation with photos is sequenced behind attachment storage — if any
rename fails the handler responds 500 without writing (the collection is
unchanged), and only when every rename succeeds is the new entry appended
at the end of the stored collection. -/
theorem create_with_photos_atomic (es : List Entry)
    (date title time text color : Option String)
    (files : List UploadFile) (now : Nat) (completion : List Nat) :
    (files.all (fun f => f.moveOk) = false →
      postJournalRoute (some (FileContent.entriesArr es)) date title time text
          color files now completion = (500, none)) ∧
    (files.all (fun f => f.moveOk) = true →
      ∃ refs,
        postJournalRoute (some (FileContent.entriesArr es)) date title time text
            color files now completion
          = (200, some (es ++
              [{ date := date, title := title, time := time, text := text,
                 color := colorOrDefault color, photos := refs }]))) := by
  constructor
  · intro hall
    simp [postJournalRoute, createJournalEntryInFile,
      getAllJournalEntriesFromFile, storePhotos, hall]
  · intro hall
    refine ⟨completion.filterMap (fun i => (files[i]?).map (photoRef now)), ?_⟩
    simp [postJournalRoute, createJournalEntryInFile,
      getAllJournalEntriesFromFile, storePhotos, hall]

/-- Witness for C4: one failing rename aborts creation with no write; a
fully successful upload appends the entry. -/
theorem create_with_photos_atomic_witness :
    postJournalRoute (some (FileContent.entriesArr [])) (some "2025-01-01")
        (some "Trip") none none none
        [{ originalname := "a.jpg", tmpPath := "t1", moveOk := false }] 7 [0]
      = (500, none) ∧
    ∃ refs,
      postJournalRoute (some (FileContent.entriesArr [])) (some "2025-01-01")
          (some "Trip") none none none
          [{ originalname := "a.jpg", tmpPath := "t1", moveOk := true }] 7 [0]
        = (200, some
            [{ date := some "2025-01-01", title := some "Trip", time := none,
               text := none, color := "blue", photos := refs }]) :=
  ⟨(create_with_photos_atomic [] (some "2025-01-01") (some "Trip") none none
      none [{ originalname := "a.jpg", tmpPath := "t1", moveOk := false }]
      7 [0]).1 (by decide),
   (create_with_photos_atomic [] (some "2025-01-01") (some "Trip") none none
      none [{ originalname := "a.jpg", tmpPath := "t1", moveOk := true }]
      7 [0]).2 (by decide)⟩

/-- C5 (counterexample): a missing backing file (`readFile` rejects) and an
empty/unparseable one (`JSON.parse` throws) both surface as a 500 error
from `GET /api/journal/all`, not as an empty sequence. -/
theorem list_missing_medium_errors :
    getAllRoute none = (500, none) ∧
    getAllRoute (some FileContent.invalid) = (500, none) ∧
    getAllRoute none ≠ (200, some ([] : List Entry)) ∧
    getAllRoute (some FileContent.invalid) ≠ (200, some ([] : List Entry)) := by
  decide

/-- C5 (amended): the list operation returns all entries in storage order
when the medium holds an entry array, returns an empty sequence only when
the content parses to a falsy JSON value, and fails (500) when the medium
is missing or its content cannot be parsed — an empty file included. -/
theorem list_route_behavior (es : List Entry) :
    getAllRoute (some (FileContent.entriesArr es)) = (200, some es) ∧
    getAllRoute (some FileContent.falsyJson) = (200, some []) ∧
    getAllRoute none = (500, none) ∧
    getAllRoute (some FileContent.invalid) = (500, none) :=
  ⟨rfl, rfl, rfl, rfl⟩

/-- C6 (counterexample): a color outside the fixed enumeration is stored
verbatim — creating with `color = "magenta"` stores `"magenta"`, not
`"blue"`. -/
theorem invalid_color_stored_verbatim :
    postJournalRoute (some (FileContent.entriesArr [])) (some "2025-01-01")
        (some "Trip") none none (some "magenta") [] 7 []
      = (200, some
          [{ date := some "2025-01-01", title := some "Trip", time := none,
             text := none, color := "magenta", photos := [] }]) ∧
    "magenta" ∉ ["red", "orange", "yellow", "green", "blue", "purple",
        "pink", "gray"] ∧
    "magenta" ≠ "blue" := by
  decide

/-- C6 (amended): the stored color is exactly `color || "blue"` — the
requested string whenever it is non-empty (with no validation against the
enumeration), and `"blue"` when the field is absent or the empty string. -/
theorem stored_color_amended (es : List Entry)
    (date title time text : Option String) (c : Option String)
    (now : Nat) (completion : List Nat) :
    postJournalRoute (some (FileContent.entriesArr es)) date title time text c
        [] now completion
      = (200, some (es ++
          [{ date := date, title := title, time := time, text := text,
             color := colorOrDefault c, photos := [] }])) ∧
    colorOrDefault none = "blue" ∧
    colorOrDefault (some "") = "blue" ∧
    (∀ s : String, s ≠ "" → colorOrDefault (some s) = s) := by
  refine ⟨?_, rfl, rfl, ?_⟩
  · simp [postJournalRoute, createJournalEntryInFile,
      getAllJournalEntriesFromFile, storePhotos_nil]
  · intro s hs
    simp [colorOrDefault, hs]

/-- Witness for C6 (amended) at `color = "magenta"`. -/
theorem stored_color_amended_witness :
    colorOrDefault (some "magenta") = "magenta" ∧
    postJournalRoute (some (FileContent.entriesArr [])) (some "2025-01-01")
        (some "Trip") none none (some "magenta") [] 7 []
      = (200, some
          [{ date := some "2025-01-01", title := some "Trip", time := none,
             text := none, color := colorOrDefault (some "magenta"),
             photos := [] }]) :=
  ⟨(stored_color_amended [] (some "2025-01-01") (some "Trip") none none
      (some "magenta") 7 []).2.2.2 "magenta" (by decide),
   (stored_color_amended [] (some "2025-01-01") (some "Trip") none none
      (some "magenta") 7 []).1⟩

/-- C7 (counterexample): a creation request with no `title` field is not
rejected — the handler responds 200 (not 400) and appends an entry whose
`title` is absent. -/
theorem missing_title_not_rejected :
    (postJournalRoute (some (FileContent.entriesArr [])) (some "2025-01-01")
        none none none (some "blue") [] 7 []).1 = 200 ∧
    (postJournalRoute (some (FileContent.entriesArr [])) (some "2025-01-01")
        none none none (some "blue") [] 7 []).1 ≠ 400 ∧
    (postJournalRoute (some (FileContent.entriesArr [])) (some "2025-01-01")
        none none none (some "blue") [] 7 []).2
      = some
          [{ date := some "2025-01-01", title := none, time := none,
             text := none, color := "blue", photos := [] }] := by
  decide

/-- C7 (amended): the server performs no validation of the required `title`
field — a photo-less creation request with `title` absent always succeeds
(200) and appends an entry with no title to the stored collection. (The
only title check lives client-side, in the create form of RightPanel.) -/
theorem missing_title_appends (es : List Entry)
    (date time text color : Option String) (now : Nat) (completion : List Nat) :
    postJournalRoute (some (FileContent.entriesArr es)) date none time text
        color [] now completion
      = (200, some (es ++
          [{ date := date, title := none, time := time, text := text,
             color := colorOrDefault color, photos := [] }])) := by
  simp [postJournalRoute, createJournalEntryInFile,
    getAllJournalEntriesFromFile, storePhotos_nil]

/-- Decimal digit value of a character, `none` for a non-digit. -/
def digitVal (c : Char) : Option Nat :=
  if c.isDigit then some (c.toNat - 48) else none

/-- Field values of a zero-padded `YYYY-MM-DD` date-only string, the shape
the ECMAScript date-time string format accepts for `new Date(e.date)`;
`none` models a string that parses to an Invalid Date. -/
def parseYMD (s : String) : Option (Int × Int × Int) :=
  match s.toList with
  | [y1, y2, y3, y4, h1, m1, m2, h2, d1, d2] =>
    if h1 = '-' ∧ h2 = '-' then
      match digitVal y1, digitVal y2, digitVal y3, digitVal y4,
          digitVal m1, digitVal m2, digitVal d1, digitVal d2 with
      | some a, some b, some c, some d, some m, some n, some p, some q =>
        let y := ((a * 10 + b) * 10 + c) * 10 + d
        let mo := m * 10 + n
        let da := p * 10 + q
        if 1 ≤ mo ∧ mo ≤ 12 ∧ 1 ≤ da ∧ da ≤ 31 then
          some ((y : Int), (mo : Int), (da : Int))
        else none
      | _, _, _, _, _, _, _, _ => none
    else none
  | _ => none

/-- Days since the Unix epoch of a proleptic-Gregorian civil date — the
ECMAScript `MakeDay` computation behind `Date` parsing (`/` and `%` are
floor division and nonnegative remainder for these positive divisors). -/
def daysFromCivil (y m d : Int) : Int :=
  let y2 := if m ≤ 2 then y - 1 else y
  let era := y2 / 400
  let yoe := y2 - era * 400
  let mp := (m + 9) % 12
  let doy := (153 * mp + 2) / 5 + d - 1
  let doe := yoe * 365 + yoe / 4 - yoe / 100 + doy
  era * 146097 + doe - 719468

/-- Timestamp, in minutes since the epoch, of `new Date(s)` for a
date-only string: ECMAScript parses `YYYY-MM-DD` as *UTC* midnight of the
named day (not local midnight); `none` is an Invalid Date. -/
def jsDateOnlyUTC (s : String) : Option Int :=
  match parseYMD s with
  | none => none
  | some (y, mo, da) => some (daysFromCivil y mo da * 1440)

/-- Timestamp of `new Date(e.date)`, `none` for an Invalid Date. -/
def entryDateUTC (e : Entry) : Option Int :=
  match e.date with
  | none => none
  | some s => jsDateOnlyUTC s

/-- Effect of `d.setHours(0, 0, 0, 0)` on an instant `t` (minutes since
epoch, UTC) in an environment whose local timezone is `off` minutes east
of UTC (negative west of UTC): the local time `t + off` is floored to the
start of its local calendar day (`%` is the nonnegative remainder, so
subtracting it floors to a multiple of 1440 minutes), then converted back
to a UTC timestamp. -/
def truncToLocalMidnight (off t : Int) : Int :=
  (t + off) - (t + off) % 1440 - off

/-- Predicate of the `App.tsx` memories filter: `d < today`, where `d` is
`new Date(e.date)` (UTC midnight of the named day) truncated to *local*
midnight and `tk` is the already-truncated `today` (itself a local
midnight); a comparison involving an Invalid Date (NaN) is false. -/
def isMemory (off tk : Int) (e : Entry) : Bool :=
  match entryDateUTC e with
  | some t => decide (truncToLocalMidnight off t < tk)
  | none => false

/-- Predicate of the `App.tsx` reminders filter: `d >= today`. -/
def isReminder (off tk : Int) (e : Entry) : Bool :=
  match entryDateUTC e with
  | some t => decide (tk ≤ truncToLocalMidnight off t)
  | none => false

/-- Model of `memories = calendarEntries.filter((e) => { ... return d < today })`. -/
def memories (off tk : Int) (es : List Entry) : List Entry :=
  es.filter (isMemory off tk)

/-- Model of `reminders = calendarEntries.filter((e) => { ... return d >= today })`. -/
def reminders (off tk : Int) (es : List Entry) : List Entry :=
  es.filter (isReminder off tk)

/-- Sample entry dated the day before the fixed today `2025-06-15`. -/
def entry0614 : Entry :=
  { date := some "2025-06-14", title := some "Walk", time := none,
    text := none, color := "blue", photos := [] }

/-- Entry dated on the fixed today. -/
def entry0615 : Entry :=
  { date := some "2025-06-15", title := some "Dentist", time := some "10:00",
    text := none, color := "red", photos := [] }

/-- Entry dated after the fixed today. -/
def entry0616 : Entry :=
  { date := some "2025-06-16", title := some "Trip", time := none,
    text := none, color := "pink", photos := [] }

/-- C8 (counterexample): the today-is-a-reminder boundary fails west of
UTC. In a UTC-4 environment (America/Toronto during DST — the app's
default locale) with today = 2025-06-15, the truncated `today` is the
local midnight `daysFromCivil 2025 6 15 * 1440 + 240`; the entry dated
`2025-06-15` parses to *UTC* midnight of that day, truncates to the
*previous* local day, and is classified as a memory, not a reminder. -/
theorem memory_today_west_of_utc :
    entry0615 ∈ memories (-240) (daysFromCivil 2025 6 15 * 1440 + 240)
        [entry0615] ∧
    entry0615 ∉ reminders (-240) (daysFromCivil 2025 6 15 * 1440 + 240)
        [entry0615] := by
  decide

/-- C8 (amended): for a fixed today truncated to local midnight of local
day `M`, in an environment `off` minutes east of UTC (|off| below one
day), an entry whose parseable date names civil day `N` is classified as
follows. At or east of UTC (`0 ≤ off`): a memory exactly when `N < M` and
a reminder exactly when `M ≤ N`, as the original claim states. West of
UTC (`off < 0`): the UTC-midnight parse truncates to the previous local
day, so a memory exactly when `N ≤ M` — an entry dated today included —
and a reminder exactly when `M < N`. In every environment an entry with a
parseable date falls into exactly one of the two lists. -/
theorem memory_reminder_partition_tz (es : List Entry) (off M : Int)
    (h1 : -1440 < off) (h2 : off < 1440) (e : Entry) (he : e ∈ es)
    (N : Int) (hN : entryDateUTC e = some (N * 1440)) :
    (e ∈ memories off (M * 1440 - off) es
        ↔ (if off < 0 then N ≤ M else N < M)) ∧
    (e ∈ reminders off (M * 1440 - off) es
        ↔ (if off < 0 then M < N else M ≤ N)) ∧
    (e ∈ memories off (M * 1440 - off) es
        ↔ e ∉ reminders off (M * 1440 - off) es) := by
  have htr : truncToLocalMidnight off (N * 1440)
      = (if off < 0 then N - 1 else N) * 1440 - off := by
    unfold truncToLocalMidnight
    by_cases hneg : off < 0
    · rw [if_pos hneg]
      omega
    · rw [if_neg hneg]
      omega
  have hmem : e ∈ memories off (M * 1440 - off) es
      ↔ (if off < 0 then N ≤ M else N < M) := by
    simp only [memories, List.mem_filter, he, true_and, isMemory, hN, htr,
      decide_eq_true_eq]
    by_cases hneg : off < 0
    · simp only [if_pos hneg]
      omega
    · simp only [if_neg hneg]
      omega
  have hrem : e ∈ reminders off (M * 1440 - off) es
      ↔ (if off < 0 then M < N else M ≤ N) := by
    simp only [reminders, List.mem_filter, he, true_and, isReminder, hN, htr,
      decide_eq_true_eq]
    by_cases hneg : off < 0
    · simp only [if_pos hneg]
      omega
    · simp only [if_neg hneg]
      omega
  refine ⟨hmem, hrem, ?_⟩
  rw [hmem, hrem]
  by_cases hneg : off < 0
  · simp only [if_pos hneg]
    omega
  · simp only [if_neg hneg]
    omega

/-- Witness for C8 (amended): at UTC (`off = 0`) today `2025-06-15` gives
the original classification (06-14 a memory, 06-15 and 06-16 reminders);
at UTC-4 the entry dated today classifies as a memory. -/
theorem memory_reminder_partition_tz_witness :
    entry0614 ∈ memories 0 (daysFromCivil 2025 6 15 * 1440 - 0)
        [entry0614, entry0615, entry0616] ∧
    entry0615 ∈ reminders 0 (daysFromCivil 2025 6 15 * 1440 - 0)
        [entry0614, entry0615, entry0616] ∧
    entry0616 ∈ reminders 0 (daysFromCivil 2025 6 15 * 1440 - 0)
        [entry0614, entry0615, entry0616] ∧
    entry0615 ∈ memories (-240) (daysFromCivil 2025 6 15 * 1440 - (-240))
        [entry0615] := by
  have h14 := memory_reminder_partition_tz [entry0614, entry0615, entry0616]
    0 (daysFromCivil 2025 6 15) (by decide) (by decide) entry0614 (by decide)
    (daysFromCivil 2025 6 14) (by decide)
  have h15 := memory_reminder_partition_tz [entry0614, entry0615, entry0616]
    0 (daysFromCivil 2025 6 15) (by decide) (by decide) entry0615 (by decide)
    (daysFromCivil 2025 6 15) (by decide)
  have h16 := memory_reminder_partition_tz [entry0614, entry0615, entry0616]
    0 (daysFromCivil 2025 6 15) (by decide) (by decide) entry0616 (by decide)
    (daysFromCivil 2025 6 16) (by decide)
  have hw := memory_reminder_partition_tz [entry0615] (-240)
    (daysFromCivil 2025 6 15) (by decide) (by decide) entry0615 (by decide)
    (daysFromCivil 2025 6 15) (by decide)
  exact ⟨h14.1.mpr (by decide), h15.2.1.mpr (by decide),
    h16.2.1.mpr (by decide), hw.1.mpr (by decide)⟩

/-- One 3-hour forecast sample from the provider's `data.list`: the fields
`fetchFiveDayForecast` reads (`item.dt_txt`, `item.main.temp`,
`item.weather[0].main`, `item.weather[0].icon`). Temperatures are modelled
as integers; only their ordering matters to the aggregation. -/
structure ForecastSample where
  dt_txt : String
  temp : Int
  weather : String
  icon : String
deriving DecidableEq, Repr

/-- The aggregated per-day summary (client type `WeatherSummary`). -/
structure WeatherSummary where
  date : String
  tempMin : Int
  tempMax : Int
  weather : String
  icon : String
deriving DecidableEq, Repr

/-- Characters before the first space: `str.split(' ')[0]`. -/
def takeUntilSpace : List Char → List Char
  | [] => []
  | c :: cs => if c = ' ' then [] else c :: takeUntilSpace cs

/-- Expression `item.dt_txt.split(' ')[0]` — the `YYYY-MM-DD` part of a sample. -/
def sampleDate (s : ForecastSample) : String :=
  String.mk (takeUntilSpace s.dt_txt.toList)

/-- The summary created on first encountering a date:
`{ date, tempMin: temp, tempMax: temp, weather, icon }`. -/
def initSummary (s : ForecastSample) : WeatherSummary :=
  { date := sampleDate s, tempMin := s.temp, tempMax := s.temp,
    weather := s.weather, icon := s.icon }

/-- The in-place update on re-encountering a date:
`tempMin = Math.min(..., temp); tempMax = Math.max(..., temp)` with
`weather`/`icon` untouched. -/
def updateSummary (w : WeatherSummary) (t : Int) : WeatherSummary :=
  { w with tempMin := min w.tempMin t, tempMax := max w.tempMax t }

/-- One step of the `data.list.forEach` loop over the insertion-ordered
`dailyMap` object (string keys of shape `YYYY-MM-DD` are not array
indices, so a JS object keeps them in insertion order): absent key appends
`initSummary`, present key updates in place. -/
def insertSample (m : List (String × WeatherSummary)) (s : ForecastSample) :
    List (String × WeatherSummary) :=
  match m with
  | [] => [(sampleDate s, initSummary s)]
  | (k, w) :: rest =>
    if k = sampleDate s then (k, updateSummary w s.temp) :: rest
    else (k, w) :: insertSample rest s

/-- The full `dailyMap` after the `forEach` over `data.list`. -/
def buildDailyMap (l : List ForecastSample) : List (String × WeatherSummary) :=
  l.foldl insertSample []

/-- The aggregation performed by `fetchFiveDayForecast` on the provider
response: `[]` when `data.list` is missing, otherwise
`Object.values(dailyMap).slice(0, 5)`. -/
def fetchFiveDayForecast (data : Option (List ForecastSample)) :
    List WeatherSummary :=
  match data with
  | none => []
  | some l => ((buildDailyMap l).map Prod.snd).take 5

/-- Temperatures of all samples whose date portion is `d`, in input order. -/
def tempsOn (l : List ForecastSample) (d : String) : List Int :=
  (l.filter (fun s => decide (sampleDate s = d))).map (fun s => s.temp)

/-- Accumulating one sample's date into the first-encounter date order. -/
def firstDatesStep (acc : List String) (s : ForecastSample) : List String :=
  if sampleDate s ∈ acc then acc else acc ++ [sampleDate s]

/-- Distinct sample dates in the order first encountered in the input. -/
def firstDates (l : List ForecastSample) : List String :=
  l.foldl firstDatesStep []

/-- Invariant tying one `dailyMap` binding to the samples processed so
far: the stored summary carries its key as `date`, its `tempMin`/`tempMax`
are the min/max of that date's temperatures, and `weather`/`icon` come
from the first sample with that date. -/
def GoodPair (l : List ForecastSample) (k : String) (w : WeatherSummary) :
    Prop :=
  w.date = k ∧
  w.tempMin ∈ tempsOn l k ∧ (∀ t ∈ tempsOn l k, w.tempMin ≤ t) ∧
  w.tempMax ∈ tempsOn l k ∧ (∀ t ∈ tempsOn l k, t ≤ w.tempMax) ∧
  ∃ s0, l.find? (fun s => decide (sampleDate s = k)) = some s0 ∧
    w.weather = s0.weather ∧ w.icon = s0.icon

theorem tempsOn_append_singleton (p : List ForecastSample)
    (s : ForecastSample) (k : String) :
    tempsOn (p ++ [s]) k
      = tempsOn p k ++ (if sampleDate s = k then [s.temp] else []) := by
  by_cases h : sampleDate s = k <;>
    simp [tempsOn, List.filter_append, h]

theorem find?_date_append (p : List ForecastSample) (s : ForecastSample)
    (k : String) :
    (p ++ [s]).find? (fun x => decide (sampleDate x = k))
      = (p.find? (fun x => decide (sampleDate x = k))).or
          (if sampleDate s = k then some s else none) := by
  rw [List.find?_append]
  by_cases h : sampleDate s = k <;> simp [List.find?, h]

theorem mem_foldl_firstDatesStep (l : List ForecastSample) :
    ∀ (acc : List String) (x : String),
      x ∈ l.foldl firstDatesStep acc ↔ x ∈ acc ∨ ∃ s ∈ l, sampleDate s = x := by
  induction l with
  | nil => intro acc x; simp
  | cons s l ih =>
    intro acc x
    have hstep : ∀ y, y ∈ firstDatesStep acc s ↔ y ∈ acc ∨ y = sampleDate s := by
      intro y
      unfold firstDatesStep
      by_cases hm : sampleDate s ∈ acc
      · rw [if_pos hm]
        exact ⟨Or.inl, fun h => h.elim id (fun h => h ▸ hm)⟩
      · rw [if_neg hm]; simp
    rw [List.foldl_cons, ih (firstDatesStep acc s) x]
    simp only [hstep, List.mem_cons]
    constructor
    · rintro ((hx | rfl) | ⟨s', hs', rfl⟩)
      · exact Or.inl hx
      · exact Or.inr ⟨s, Or.inl rfl, rfl⟩
      · exact Or.inr ⟨s', Or.inr hs', rfl⟩
    · rintro (hx | ⟨s', (rfl | hs'), rfl⟩)
      · exact Or.inl (Or.inl hx)
      · exact Or.inl (Or.inr rfl)
      · exact Or.inr ⟨s', hs', rfl⟩

theorem nodup_foldl_firstDatesStep (l : List ForecastSample) :
    ∀ acc : List String, acc.Nodup → (l.foldl firstDatesStep acc).Nodup := by
  induction l with
  | nil => intro acc h; simpa using h
  | cons s l ih =>
    intro acc h
    rw [List.foldl_cons]
    refine ih (firstDatesStep acc s) ?_
    unfold firstDatesStep
    by_cases hm : sampleDate s ∈ acc
    · rw [if_pos hm]; exact h
    · rw [if_neg hm]
      simp [List.nodup_append, h, hm]

theorem firstDates_nodup (l : List ForecastSample) : (firstDates l).Nodup :=
  nodup_foldl_firstDatesStep l [] List.nodup_nil

theorem firstDates_append_singleton (p : List ForecastSample)
    (s : ForecastSample) :
    firstDates (p ++ [s]) = firstDatesStep (firstDates p) s := by
  simp [firstDates, List.foldl_append]

theorem mem_firstDates (l : List ForecastSample) (x : String) :
    x ∈ firstDates l ↔ ∃ s ∈ l, sampleDate s = x := by
  rw [firstDates, mem_foldl_firstDatesStep]
  simp

theorem insertSample_keys (m : List (String × WeatherSummary))
    (s : ForecastSample) :
    (insertSample m s).map Prod.fst
      = if sampleDate s ∈ m.map Prod.fst then m.map Prod.fst
        else m.map Prod.fst ++ [sampleDate s] := by
  induction m with
  | nil => simp [insertSample]
  | cons hd tl ih =>
    obtain ⟨k, w⟩ := hd
    by_cases hk : k = sampleDate s
    · subst hk
      simp [insertSample]
    · rw [insertSample, if_neg hk]
      by_cases hmem : sampleDate s ∈ tl.map Prod.fst
      · simp [ih, hmem, Ne.symm hk]
      · simp [ih, hmem, Ne.symm hk]

theorem insertSample_mem_cases (m : List (String × WeatherSummary))
    (s : ForecastSample) (hnd : (m.map Prod.fst).Nodup)
    (pr : String × WeatherSummary) (hpr : pr ∈ insertSample m s) :
    (pr ∈ m ∧ pr.1 ≠ sampleDate s) ∨
    (∃ w, (sampleDate s, w) ∈ m ∧
      pr = (sampleDate s, updateSummary w s.temp)) ∨
    (sampleDate s ∉ m.map Prod.fst ∧ pr = (sampleDate s, initSummary s)) := by
  induction m with
  | nil =>
    simp only [insertSample, List.mem_singleton] at hpr
    exact Or.inr (Or.inr ⟨by simp, hpr⟩)
  | cons hd tl ih =>
    obtain ⟨k, w⟩ := hd
    simp only [List.map_cons] at hnd
    have hnd2 := List.nodup_cons.mp hnd
    by_cases hk : k = sampleDate s
    · subst hk
      rw [insertSample, if_pos rfl] at hpr
      rcases List.mem_cons.mp hpr with rfl | htl
      · exact Or.inr (Or.inl ⟨w, List.mem_cons_self _ _, rfl⟩)
      · refine Or.inl ⟨List.mem_cons_of_mem _ htl, fun h1 => hnd2.1 ?_⟩
        rw [← h1]
        exact List.mem_map_of_mem Prod.fst htl
    · rw [insertSample, if_neg hk] at hpr
      rcases List.mem_cons.mp hpr with rfl | htl
      · exact Or.inl ⟨List.mem_cons_self _ _, hk⟩
      · rcases ih hnd2.2 htl with ⟨hm, hne⟩ | ⟨w', hw', heq⟩ | ⟨hnm, heq⟩
        · exact Or.inl ⟨List.mem_cons_of_mem _ hm, hne⟩
        · exact Or.inr (Or.inl ⟨w', List.mem_cons_of_mem _ hw', heq⟩)
        · refine Or.inr (Or.inr ⟨?_, heq⟩)
          simp only [List.map_cons, List.mem_cons]
          rintro (h | h)
          · exact hk h.symm
          · exact hnm h

theorem buildDailyMap_invariant (l : List ForecastSample) :
    ∀ (p : List ForecastSample) (m : List (String × WeatherSummary)),
      m.map Prod.fst = firstDates p →
      (∀ pr ∈ m, GoodPair p pr.1 pr.2) →
      (l.foldl insertSample m).map Prod.fst = firstDates (p ++ l) ∧
      ∀ pr ∈ l.foldl insertSample m, GoodPair (p ++ l) pr.1 pr.2 := by
  induction l with
  | nil =>
    intro p m h1 h2
    rw [List.foldl_nil, List.append_nil]
    exact ⟨h1, h2⟩
  | cons s l ih =>
    intro p m h1 h2
    have hnd : (m.map Prod.fst).Nodup := h1 ▸ firstDates_nodup p
    have hkeys : (insertSample m s).map Prod.fst = firstDates (p ++ [s]) := by
      rw [insertSample_keys, firstDates_append_singleton, firstDatesStep, h1]
    have hgood : ∀ pr ∈ insertSample m s, GoodPair (p ++ [s]) pr.1 pr.2 := by
      intro pr hpr
      rcases insertSample_mem_cases m s hnd pr hpr with
        ⟨hm, hne⟩ | ⟨w, hw, heq⟩ | ⟨hnm, heq⟩
      · obtain ⟨hd, hmin1, hmin2, hmax1, hmax2, s0, hfind, hwe, hic⟩ :=
          h2 pr hm
        have ht : tempsOn (p ++ [s]) pr.1 = tempsOn p pr.1 := by
          rw [tempsOn_append_singleton, if_neg (fun h => hne h.symm)]
          simp
        refine ⟨hd, ?_, ?_, ?_, ?_, s0, ?_, hwe, hic⟩
        · rw [ht]; exact hmin1
        · rw [ht]; exact hmin2
        · rw [ht]; exact hmax1
        · rw [ht]; exact hmax2
        · rw [find?_date_append, hfind]; rfl
      · obtain ⟨hd, hmin1, hmin2, hmax1, hmax2, s0, hfind, hwe, hic⟩ :=
          h2 (sampleDate s, w) hw
        rw [heq]
        have ht : tempsOn (p ++ [s]) (sampleDate s)
            = tempsOn p (sampleDate s) ++ [s.temp] := by
          rw [tempsOn_append_singleton, if_pos rfl]
        refine ⟨hd, ?_, ?_, ?_, ?_, s0, ?_, hwe, hic⟩
        · rw [ht]
          rcases min_choice w.tempMin s.temp with h | h <;>
            rw [updateSummary] <;> simp only [h] <;>
            simp [List.mem_append, hmin1]
        · rw [ht]
          intro t htmem
          rcases List.mem_append.mp htmem with h | h
          · exact le_trans (min_le_left _ _) (hmin2 t h)
          · simp only [List.mem_singleton] at h
            exact h ▸ min_le_right _ _
        · rw [ht]
          rcases max_choice w.tempMax s.temp with h | h <;>
            rw [updateSummary] <;> simp only [h] <;>
            simp [List.mem_append, hmax1]
        · rw [ht]
          intro t htmem
          rcases List.mem_append.mp htmem with h | h
          · exact le_trans (hmax2 t h) (le_max_left _ _)
          · simp only [List.mem_singleton] at h
            exact h ▸ le_max_right _ _
        · rw [find?_date_append, hfind]; rfl
      · rw [heq]
        have hnp : ∀ s2 ∈ p, sampleDate s2 ≠ sampleDate s := by
          intro s2 hs2 hd2
          exact hnm (h1 ▸ (mem_firstDates p (sampleDate s)).mpr ⟨s2, hs2, hd2⟩)
        have hnone : tempsOn p (sampleDate s) = [] := by
          simp only [tempsOn, List.map_eq_nil_iff, List.filter_eq_nil_iff,
            decide_eq_true_eq]
          exact hnp
        have hfindnone :
            p.find? (fun x => decide (sampleDate x = sampleDate s)) = none :=
          List.find?_eq_none.mpr (by simpa using hnp)
        have ht : tempsOn (p ++ [s]) (sampleDate s) = [s.temp] := by
          rw [tempsOn_append_singleton, if_pos rfl, hnone]
          rfl
        refine ⟨rfl, ?_, ?_, ?_, ?_, s, ?_, rfl, rfl⟩
        · rw [ht]; exact List.mem_singleton_self _
        · rw [ht]
          intro t htmem
          simp only [List.mem_singleton] at htmem
          rw [htmem]
          exact le_refl _
        · rw [ht]; exact List.mem_singleton_self _
        · rw [ht]
          intro t htmem
          simp only [List.mem_singleton] at htmem
          rw [htmem]
          exact le_refl _
        · rw [find?_date_append, hfindnone, if_pos rfl]
          rfl
    have hres := ih (p ++ [s]) (insertSample m s) hkeys hgood
    rw [List.foldl_cons]
    constructor
    · rw [hres.1]
      congr 1
      simp
    · intro pr hpr
      have := hres.2 pr hpr
      simpa using this

/-- C9: the forecast aggregation groups samples by the date portion of
their timestamp: the output has at most 5 summaries, its dates are the
first (at most) 5 distinct dates in the order first encountered in the
input, and each summary carries the minimum and maximum temperature over
all of that date's samples together with the weather condition and icon of
the first sample encountered for the date. -/
theorem forecast_aggregation (samples : List ForecastSample) :
    (fetchFiveDayForecast (some samples)).length ≤ 5 ∧
    (fetchFiveDayForecast (some samples)).map (fun w => w.date)
        = (firstDates samples).take 5 ∧
    ∀ w ∈ fetchFiveDayForecast (some samples),
      w.tempMin ∈ tempsOn samples w.date ∧
      (∀ t ∈ tempsOn samples w.date, w.tempMin ≤ t) ∧
      w.tempMax ∈ tempsOn samples w.date ∧
      (∀ t ∈ tempsOn samples w.date, t ≤ w.tempMax) ∧
      ∃ s0, samples.find? (fun s => decide (sampleDate s = w.date)) = some s0 ∧
        w.weather = s0.weather ∧ w.icon = s0.icon := by
  have hinv := buildDailyMap_invariant samples [] []
    (by simp [firstDates]) (by simp)
  simp only [List.nil_append] at hinv
  refine ⟨List.length_take_le _ _, ?_, ?_⟩
  · show (((buildDailyMap samples).map Prod.snd).take 5).map (fun w => w.date)
        = (firstDates samples).take 5
    rw [List.map_take]
    congr 1
    rw [List.map_map, ← hinv.1]
    exact List.map_congr_left (fun pr hpr => (hinv.2 pr hpr).1)
  · intro w hw
    have hw2 : w ∈ (buildDailyMap samples).map Prod.snd :=
      List.mem_of_mem_take hw
    obtain ⟨pr, hpr, rfl⟩ := List.mem_map.mp hw2
    obtain ⟨hdate, h1, h2, h3, h4, s0, h5, h6, h7⟩ := hinv.2 pr hpr
    rw [hdate]
    exact ⟨h1, h2, h3, h4, s0, h5, h6, h7⟩

/-- Three 3-hour samples for `2025-06-15` with temperatures 18, 22, 15. -/
def demoSamples : List ForecastSample :=
  [{ dt_txt := "2025-06-15 09:00:00", temp := 18, weather := "Clouds",
     icon := "03d" },
   { dt_txt := "2025-06-15 12:00:00", temp := 22, weather := "Clear",
     icon := "01d" },
   { dt_txt := "2025-06-15 15:00:00", temp := 15, weather := "Rain",
     icon := "10d" }]

/-- The aggregated summary expected for the sample day. -/
def demoSummary : WeatherSummary :=
  { date := "2025-06-15", tempMin := 15, tempMax := 22, weather := "Clouds",
    icon := "03d" }

/-- Witness for C9: on the sample day with temperatures `[18, 22, 15]` the
aggregated summary has `tempMin = 15`, `tempMax = 22`, and condition/icon
of the first sample. -/
theorem forecast_aggregation_witness :
    fetchFiveDayForecast (some demoSamples) = [demoSummary] ∧
    (15 : Int) ∈ tempsOn demoSamples "2025-06-15" ∧
    (fetchFiveDayForecast (some demoSamples)).length ≤ 5 := by
  have h := forecast_aggregation demoSamples
  have hw := h.2.2 demoSummary (by decide)
  exact ⟨by decide, hw.1, h.1⟩

/-- The client `NoteColor` union type (the fixed color enumeration). -/
inductive NoteColor where
  | red | orange | yellow | green | blue | purple | pink | gray
deriving DecidableEq, Repr

/-- The runtime string value of a `NoteColor` literal. -/
def NoteColor.str : NoteColor → String
  | NoteColor.red => "red"
  | NoteColor.orange => "orange"
  | NoteColor.yellow => "yellow"
  | NoteColor.green => "green"
  | NoteColor.blue => "blue"
  | NoteColor.purple => "purple"
  | NoteColor.pink => "pink"
  | NoteColor.gray => "gray"

/-- Structure `NoteColorConfig` from `lib/noteColors.ts`. -/
structure NoteColorConfig where
  classes : String
  hex : String
deriving DecidableEq, Repr

/-- The `NOTE_COLORS` record of `lib/noteColors.ts`, keyed by the
enumeration. -/
def NOTE_COLORS : NoteColor → NoteColorConfig
  | NoteColor.red =>
    { classes := "bg-red-100 border-red-200 text-red-900", hex := "#ef4444" }
  | NoteColor.orange =>
    { classes := "bg-orange-100 border-orange-200 text-orange-900",
      hex := "#f97316" }
  | NoteColor.yellow =>
    { classes := "bg-yellow-100 border-yellow-200 text-yellow-900",
      hex := "#eab308" }
  | NoteColor.green =>
    { classes := "bg-green-100 border-green-200 text-green-900",
      hex := "#22c55e" }
  | NoteColor.blue =>
    { classes := "bg-blue-100 border-blue-200 text-blue-900",
      hex := "#3b82f6" }
  | NoteColor.purple =>
    { classes := "bg-purple-100 border-purple-200 text-purple-900",
      hex := "#a855f7" }
  | NoteColor.pink =>
    { classes := "bg-pink-100 border-pink-200 text-pink-900",
      hex := "#ec4899" }
  | NoteColor.gray =>
    { classes := "bg-gray-100 border-gray-200 text-gray-900",
      hex := "#9ca3af" }

/-- JS property access `NOTE_COLORS[s]` on an arbitrary runtime string:
`some` config for the record's eight keys, `undefined` (`none`) for any
other string. -/
def noteColorsLookup (s : String) : Option NoteColorConfig :=
  if s = "red" then some (NOTE_COLORS NoteColor.red)
  else if s = "orange" then some (NOTE_COLORS NoteColor.orange)
  else if s = "yellow" then some (NOTE_COLORS NoteColor.yellow)
  else if s = "green" then some (NOTE_COLORS NoteColor.green)
  else if s = "blue" then some (NOTE_COLORS NoteColor.blue)
  else if s = "purple" then some (NOTE_COLORS NoteColor.purple)
  else if s = "pink" then some (NOTE_COLORS NoteColor.pink)
  else if s = "gray" then some (NOTE_COLORS NoteColor.gray)
  else none

/-- Constant `DEFAULT_COLOR` of `lib/noteColors.ts`. -/
def DEFAULT_COLOR : NoteColor := NoteColor.blue

/-- Function `getNoteColorConfig(color) { return NOTE_COLORS[color ?? DEFAULT_COLOR] }`
on its declared TypeScript domain (`color?: NoteColor`). -/
def getNoteColorConfig (c : Option NoteColor) : NoteColorConfig :=
  NOTE_COLORS (c.getD DEFAULT_COLOR)

/-- Shared `noteBg` of `lib/noteColors.ts` on its declared domain. -/
def noteBg (c : Option NoteColor) : String :=
  (getNoteColorConfig c).classes

/-- Shared `noteBg` as executed on an arbitrary runtime color string — the
RightPanel call sites pass `e.color as NoteColor`, so any stored string
reaches it. For a string outside the enumeration the record lookup yields
`undefined` and reading `.classes` throws a TypeError, modelled as `none`
(no class string is produced). -/
def noteBgRuntime (c : Option String) : Option String :=
  (noteColorsLookup (c.getD "blue")).map (fun cfg => cfg.classes)

/-- The local `noteBg` switch inside `MonthlyCalendar.tsx`, including its
`default` case returning the blue styling. -/
def monthlyCalendarNoteBg (color : String) : String :=
  if color = "red" then "bg-red-100 border-red-200 text-red-900"
  else if color = "orange" then "bg-orange-100 border-orange-200 text-orange-900"
  else if color = "yellow" then "bg-yellow-100 border-yellow-200 text-yellow-900"
  else if color = "green" then "bg-green-100 border-green-200 text-green-900"
  else if color = "blue" then "bg-blue-100 border-blue-200 text-blue-900"
  else if color = "purple" then "bg-purple-100 border-purple-200 text-purple-900"
  else if color = "pink" then "bg-pink-100 border-pink-200 text-pink-900"
  else if color = "gray" then "bg-gray-100 border-gray-200 text-gray-900"
  else "bg-blue-100 border-blue-200 text-blue-900"

/-- C10 (counterexample): on the unrecognized color `"magenta"` the local
switch returns the blue styling but the shared `noteBg`'s record lookup
produces no class string at all (a runtime TypeError), so the two mappings
do not both map an unrecognized color to the blue styling. -/
theorem noteBg_unrecognized_mismatch :
    monthlyCalendarNoteBg "magenta"
      = "bg-blue-100 border-blue-200 text-blue-900" ∧
    noteBgRuntime (some "magenta") = none ∧
    noteBgRuntime (some "magenta")
      ≠ some (monthlyCalendarNoteBg "magenta") := by
  refine ⟨rfl, rfl, ?_⟩
  decide

/-- C10 (amended): the two mappings return the same class string for every
color in the enumeration; the shared `noteBg` maps an absent color to the
blue styling (as does its runtime form on the strings of the enumeration),
and the local switch maps every unrecognized string to the blue styling —
but on such a string the shared mapping's record lookup yields no styling
(a runtime TypeError) instead of the blue styling. -/
theorem noteBg_agreement_amended :
    (∀ c : NoteColor,
      monthlyCalendarNoteBg c.str = noteBg (some c) ∧
      noteBgRuntime (some c.str) = some (noteBg (some c))) ∧
    noteBg none = "bg-blue-100 border-blue-200 text-blue-900" ∧
    noteBgRuntime none = some "bg-blue-100 border-blue-200 text-blue-900" ∧
    (∀ s : String, noteColorsLookup s = none →
      monthlyCalendarNoteBg s = "bg-blue-100 border-blue-200 text-blue-900" ∧
      noteBgRuntime (some s) = none) := by
  refine ⟨?_, rfl, rfl, ?_⟩
  · intro c
    cases c <;> exact ⟨rfl, rfl⟩
  · intro s hs
    unfold noteColorsLookup at hs
    constructor
    · unfold monthlyCalendarNoteBg
      split_ifs at hs ⊢
      simp_all
    · show (noteColorsLookup s).map (fun cfg => cfg.classes) = none
      unfold noteColorsLookup
      split_ifs at hs ⊢
      simp_all

/-- Witness for C10 (amended): agreement at `green`, and the divergence of
the two mappings at the unrecognized string `"magenta"`. -/
theorem noteBg_agreement_amended_witness :
    monthlyCalendarNoteBg "green" = noteBg (some NoteColor.green) ∧
    noteColorsLookup "magenta" = none ∧
    monthlyCalendarNoteBg "magenta"
      = "bg-blue-100 border-blue-200 text-blue-900" ∧
    noteBgRuntime (some "magenta") = none :=
  ⟨(noteBg_agreement_amended.1 NoteColor.green).1, by decide,
   (noteBg_agreement_amended.2.2.2 "magenta" (by decide)).1,
   (noteBg_agreement_amended.2.2.2 "magenta" (by decide)).2⟩
